import Mathlib

/-!
Shallow embedding of the Intervalg library (file intervalg.py): a Python
value type for closed numeric intervals with endpoint-wise arithmetic,
interval ordering, set-like operations and a string parser.

Python float values are modelled by the inductive type PyFloat: a finite
value (as an exact rational), positive or negative infinity, or NaN.
Comparison and arithmetic follow IEEE-754 / CPython semantics: every
comparison with NaN is false, any arithmetic with NaN yields NaN,
opposite infinities sum to NaN, and so on. Signed zero is not modelled
(both Python zeros collapse to fin 0). Operations that raise a Python
exception are embedded as Option or Except returning functions, where
none / error models the raised exception.
-/

namespace Intervalg

/-- Model of a Python float (or int embedded into floats): finite rational,
positive infinity, negative infinity, or NaN. -/
inductive PyFloat where
  | nan : PyFloat
  | negInf : PyFloat
  | posInf : PyFloat
  | fin : ℚ → PyFloat
deriving DecidableEq, Repr

namespace PyFloat

/-- Python comparison x < y on floats: false whenever either side is NaN. -/
def pyLt : PyFloat → PyFloat → Bool
  | nan, _ => false
  | _, nan => false
  | negInf, negInf => false
  | negInf, _ => true
  | _, negInf => false
  | posInf, _ => false
  | fin _, posInf => true
  | fin a, fin b => decide (a < b)

/-- Python comparison x <= y on floats: false whenever either side is NaN. -/
def pyLe : PyFloat → PyFloat → Bool
  | nan, _ => false
  | _, nan => false
  | negInf, _ => true
  | _, negInf => false
  | _, posInf => true
  | posInf, _ => false
  | fin a, fin b => decide (a ≤ b)

/-- Python comparison x > y on floats. -/
def pyGt (x y : PyFloat) : Bool := pyLt y x

/-- Python comparison x >= y on floats. -/
def pyGe (x y : PyFloat) : Bool := pyLe y x

/-- Python equality x == y on floats: NaN is not equal to anything,
itself included. -/
def pyEqF : PyFloat → PyFloat → Bool
  | nan, _ => false
  | _, nan => false
  | negInf, negInf => true
  | posInf, posInf => true
  | fin a, fin b => decide (a = b)
  | _, _ => false

/-- Model of math.isfinite. -/
def isFinite : PyFloat → Bool
  | fin _ => true
  | _ => false

/-- Model of math.isinf. -/
def isInf : PyFloat → Bool
  | posInf => true
  | negInf => true
  | _ => false

/-- Python builtin min of two values: returns the second argument only when
it compares strictly below the first. -/
def pyMinF (a b : PyFloat) : PyFloat := if pyLt b a then b else a

/-- Python builtin max of two values: returns the second argument only when
it compares strictly above the first. -/
def pyMaxF (a b : PyFloat) : PyFloat := if pyGt b a then b else a

/-- Python float addition. -/
def pyAdd : PyFloat → PyFloat → PyFloat
  | nan, _ => nan
  | _, nan => nan
  | posInf, negInf => nan
  | negInf, posInf => nan
  | posInf, _ => posInf
  | _, posInf => posInf
  | negInf, _ => negInf
  | _, negInf => negInf
  | fin a, fin b => fin (a + b)

/-- Python float subtraction. -/
def pySub : PyFloat → PyFloat → PyFloat
  | nan, _ => nan
  | _, nan => nan
  | posInf, posInf => nan
  | negInf, negInf => nan
  | posInf, _ => posInf
  | _, posInf => negInf
  | negInf, _ => negInf
  | _, negInf => posInf
  | fin a, fin b => fin (a - b)

/-- Python float multiplication: infinity times zero is NaN. -/
def pyMul : PyFloat → PyFloat → PyFloat
  | nan, _ => nan
  | _, nan => nan
  | posInf, posInf => posInf
  | posInf, negInf => negInf
  | negInf, posInf => negInf
  | negInf, negInf => posInf
  | posInf, fin b => if 0 < b then posInf else if b < 0 then negInf else nan
  | fin a, posInf => if 0 < a then posInf else if a < 0 then negInf else nan
  | negInf, fin b => if 0 < b then negInf else if b < 0 then posInf else nan
  | fin a, negInf => if 0 < a then negInf else if a < 0 then posInf else nan
  | fin a, fin b => fin (a * b)

/-- Python unary negation on floats. -/
def pyNeg : PyFloat → PyFloat
  | nan => nan
  | posInf => negInf
  | negInf => posInf
  | fin a => fin (-a)

/-- Python builtin abs on floats. -/
def pyAbs : PyFloat → PyFloat
  | nan => nan
  | posInf => posInf
  | negInf => posInf
  | fin a => fin |a|

/-- Python true division; none models a raised ZeroDivisionError, which
CPython raises exactly when the divisor is (integer or float) zero.
Finite over infinite gives zero (signed zero collapsed to fin 0),
infinite over infinite gives NaN. -/
def pyDiv (a b : PyFloat) : Option PyFloat :=
  match b with
  | fin q =>
    if q = 0 then none
    else some (match a with
      | nan => nan
      | posInf => if 0 < q then posInf else negInf
      | negInf => if 0 < q then negInf else posInf
      | fin p => fin (p / q))
  | nan => some nan
  | posInf => some (match a with
      | fin _ => fin 0
      | _ => nan)
  | negInf => some (match a with
      | fin _ => fin 0
      | _ => nan)

/-- Python floor division; none models a raised ZeroDivisionError.
An infinite or NaN dividend gives NaN; a finite dividend over an infinity
gives 0 or -1 depending on the signs, per CPython float_divmod. -/
def pyFloorDiv (a b : PyFloat) : Option PyFloat :=
  match b with
  | fin q =>
    if q = 0 then none
    else some (match a with
      | fin p => fin (⌊p / q⌋ : ℤ)
      | _ => nan)
  | nan => some nan
  | posInf => some (match a with
      | fin p => if p < 0 then fin (-1) else fin 0
      | _ => nan)
  | negInf => some (match a with
      | fin p => if 0 < p then fin (-1) else fin 0
      | _ => nan)

/-- Python modulo; none models a raised ZeroDivisionError. The result
takes the sign of the divisor: for finite operands it is
p - q * floor (p / q), per CPython float_divmod. -/
def pyMod (a b : PyFloat) : Option PyFloat :=
  match b with
  | fin q =>
    if q = 0 then none
    else some (match a with
      | fin p => fin (p - q * ⌊p / q⌋)
      | _ => nan)
  | nan => some nan
  | posInf => some (match a with
      | fin p => if p < 0 then posInf else fin p
      | _ => nan)
  | negInf => some (match a with
      | fin p => if 0 < p then negInf else fin p
      | _ => nan)

/-- Model of math.floor on a Python float: none models the exception
CPython raises on NaN (ValueError) or infinity (OverflowError). -/
def pyFloor : PyFloat → Option PyFloat
  | fin q => some (fin (⌊q⌋ : ℤ))
  | _ => none

/-- Model of math.ceil on a Python float: none models the exception
CPython raises on NaN (ValueError) or infinity (OverflowError). -/
def pyCeil : PyFloat → Option PyFloat
  | fin q => some (fin (⌈q⌉ : ℤ))
  | _ => none

end PyFloat

open PyFloat

/-- The Interval value type: an immutable pair of bounds (in the source a
tuple subclass holding exactly two elements). -/
structure Interval where
  lower : PyFloat
  upper : PyFloat
deriving DecidableEq, Repr

/-- Errors raised by the library, all ValueError in the source; each
constructor corresponds to one raise site or propagated builtin failure. -/
inductive IntervalError where
  | disjointIntervals : Interval → Interval → IntervalError
  | tooManyFields : Nat → IntervalError
  | unparsableLimit : IntervalError
deriving DecidableEq, Repr

namespace Interval

/-- Common tail of the constructor (last lines of Interval.new): once the
raw lower and upper candidates are resolved, swap them when both are
present and out of order, then replace an absent (None) lower bound with
negative infinity and an absent upper bound with positive infinity. -/
def mkCand (lower upper : Option PyFloat) : Interval :=
  let p : Option PyFloat × Option PyFloat :=
    match lower, upper with
    | some a, some b => if pyGt a b then (some b, some a) else (some a, some b)
    | a, b => (a, b)
  ⟨p.1.getD PyFloat.negInf, p.2.getD PyFloat.posInf⟩

/-- Constructor branch for two positional numeric arguments
(or an iterable of exactly two numbers). -/
def ofTwo (a b : PyFloat) : Interval := mkCand (some a) (some b)

/-- Constructor branch for a bare two-value tuple argument. -/
def ofPair (p : PyFloat × PyFloat) : Interval := ofTwo p.1 p.2

/-- Constructor branch for no arguments or a single None argument:
the infinite interval. -/
def ofNone : Interval := mkCand none none

/-- Constructor branch for a single numeric argument: a length-zero
interval, except that a non-finite number carries no boundary
information and yields the infinite interval. -/
def ofNum (v : PyFloat) : Interval :=
  if isFinite v then mkCand (some v) (some v) else mkCand none none

-- ----- Binary arithmetic operators (endpoint-wise, after coercion) -----

/-- Method add of Interval on two intervals: endpoint-wise addition,
rebuilt through the constructor. -/
def add (a b : Interval) : Interval :=
  ofTwo (pyAdd a.lower b.lower) (pyAdd a.upper b.upper)

/-- Method add of Interval with a bare tuple as the right operand:
the tuple is first coerced to an Interval. -/
def addPair (a : Interval) (p : PyFloat × PyFloat) : Interval :=
  a.add (ofPair p)

/-- Method radd of Interval (reflected addition, reached when the left
operand is a bare tuple): the source returns self + other. -/
def radd (a : Interval) (p : PyFloat × PyFloat) : Interval :=
  a.addPair p

/-- Method sub of Interval: endpoint-wise subtraction. -/
def sub (a b : Interval) : Interval :=
  ofTwo (pySub a.lower b.lower) (pySub a.upper b.upper)

/-- Method mul of Interval: endpoint-wise multiplication. -/
def mul (a b : Interval) : Interval :=
  ofTwo (pyMul a.lower b.lower) (pyMul a.upper b.upper)

/-- Method truediv of Interval: endpoint-wise true division with no zero
guard; none models the ZeroDivisionError propagating out. -/
def truediv (a b : Interval) : Option Interval := do
  let l ← pyDiv a.lower b.lower
  let u ← pyDiv a.upper b.upper
  return ofTwo l u

/-- Method floordiv of Interval: endpoint-wise floor division with no zero
guard; none models the ZeroDivisionError propagating out. -/
def floordiv (a b : Interval) : Option Interval := do
  let l ← pyFloorDiv a.lower b.lower
  let u ← pyFloorDiv a.upper b.upper
  return ofTwo l u

/-- Method mod of Interval: endpoint-wise modulo with no zero guard;
none models the ZeroDivisionError propagating out. -/
def modI (a b : Interval) : Option Interval := do
  let l ← pyMod a.lower b.lower
  let u ← pyMod a.upper b.upper
  return ofTwo l u

-- ----- Unary arithmetic operators -----

/-- Method neg of Interval: negate both bounds, rebuild through the
constructor. -/
def neg (a : Interval) : Interval :=
  ofTwo (pyNeg a.lower) (pyNeg a.upper)

/-- Method abs of Interval: absolute value of both bounds, rebuilt through
the constructor. -/
def absI (a : Interval) : Interval :=
  ofTwo (pyAbs a.lower) (pyAbs a.upper)

/-- Method round_wider of Interval: round the lower bound toward zero
sign-dependently (floor when nonnegative else ceil) and the upper bound
away from zero; none models the exception math.floor / math.ceil raises
on a non-finite bound. -/
def round_wider (a : Interval) : Option Interval :=
  let lowerOpt :=
    if pyGe a.lower (PyFloat.fin 0) then pyFloor a.lower else pyCeil a.lower
  let upperOpt :=
    if pyGe a.upper (PyFloat.fin 0) then pyCeil a.upper else pyFloor a.upper
  lowerOpt.bind fun lower => upperOpt.bind fun upper => some (ofTwo lower upper)

/-- Method round_narrower of Interval: the mirror of round_wider. -/
def round_narrower (a : Interval) : Option Interval :=
  let lowerOpt :=
    if pyGe a.lower (PyFloat.fin 0) then pyCeil a.lower else pyFloor a.lower
  let upperOpt :=
    if pyGe a.upper (PyFloat.fin 0) then pyFloor a.upper else pyCeil a.upper
  lowerOpt.bind fun lower => upperOpt.bind fun upper => some (ofTwo lower upper)

/-- Method sign of Interval: maps each bound to 1, -1 or 0 by comparison
with zero (NaN compares false both ways, hence maps to 0). -/
def sign (a : Interval) : Interval :=
  let s : PyFloat → PyFloat := fun x =>
    if pyGt x (PyFloat.fin 0) then PyFloat.fin 1
    else if pyLt x (PyFloat.fin 0) then PyFloat.fin (-1)
    else PyFloat.fin 0
  ofTwo (s a.lower) (s a.upper)

-- ----- Comparison operators -----

/-- Method eq of Interval: Python structural equality of the two bound
pairs (hence false on any NaN bound). -/
def pyEqI (a b : Interval) : Bool :=
  pyEqF a.lower b.lower && pyEqF a.upper b.upper

/-- Method lt of Interval: interval ordering, self.upper < other.lower. -/
def lt (a b : Interval) : Bool := pyLt a.upper b.lower

/-- Method le of Interval: interval ordering, self.upper <= other.lower. -/
def le (a b : Interval) : Bool := pyLe a.upper b.lower

/-- Method gt of Interval: interval ordering, self.lower > other.upper. -/
def gt (a b : Interval) : Bool := pyGt a.lower b.upper

/-- Method ge of Interval: interval ordering, self.lower >= other.upper. -/
def ge (a b : Interval) : Bool := pyGe a.lower b.upper

-- ----- Set-like operations -----

/-- Method is_disjoint of Interval: the one-directional check
self.upper < other.lower from the source. -/
def is_disjoint (a b : Interval) : Bool := pyLt a.upper b.lower

/-- Method intersection of Interval: raises (error) on disjoint inputs only
when err_on_disjoint is set; otherwise builds the interval from
max of the lower bounds and min of the upper bounds through the
constructor. -/
def intersection (a b : Interval) (err_on_disjoint : Bool) :
    Except IntervalError Interval :=
  if a.is_disjoint b && err_on_disjoint then
    .error (.disjointIntervals a b)
  else
    .ok (ofTwo (pyMaxF a.lower b.lower) (pyMinF a.upper b.upper))

/-- Method union of Interval: raises (error) on disjoint inputs only when
err_on_disjoint is set; otherwise builds the convex hull through the
constructor. -/
def union (a b : Interval) (err_on_disjoint : Bool) :
    Except IntervalError Interval :=
  if a.is_disjoint b && err_on_disjoint then
    .error (.disjointIntervals a b)
  else
    .ok (ofTwo (pyMinF a.lower b.lower) (pyMaxF a.upper b.upper))

end Interval

-- ----- String parsing (classmethods from_string and parse_string_limit) -----

/-- Whitespace characters matched by the regex class backslash-s used in
from_string (ASCII range, as Python unicode whitespace beyond ASCII is
out of scope here). -/
def isPyWs (c : Char) : Bool := c ∈ [' ', '\t', '\n', '\r', '\x0b', '\x0c']

/-- Model of re.sub removing every whitespace run: drop all whitespace. -/
def removeWhitespace (s : List Char) : List Char := s.filter (fun c => !isPyWs c)

/-- Model of str.lower on one ASCII character. -/
def pyToLower (c : Char) : Char :=
  if 65 ≤ c.toNat ∧ c.toNat ≤ 90 then Char.ofNat (c.toNat + 32) else c

/-- The four bracket characters stripped from both ends by from_string. -/
def isBracketChar (c : Char) : Bool := c ∈ ['[', ']', '(', ')']

/-- Model of str.strip with a character class: drop matching characters
from both ends. -/
def stripChars (p : Char → Bool) (s : List Char) : List Char :=
  ((s.dropWhile p).reverse.dropWhile p).reverse

/-- Model of str.strip with no argument (whitespace on both ends). -/
def stripPyWs (s : List Char) : List Char := stripChars isPyWs s

/-- The alternate separator characters normalized to a comma. -/
def isSepChar (c : Char) : Bool := c ∈ [';', ':', '|']

/-- Model of re.sub replacing each of the characters semicolon, colon and
pipe with a comma. -/
def normalizeSeps (s : List Char) : List Char :=
  s.map (fun c => if isSepChar c then ',' else c)

/-- Model of str.split on a comma: always returns at least one field. -/
def splitOnComma : List Char → List (List Char)
  | [] => [[]]
  | c :: rest =>
    match splitOnComma rest with
    | [] => [[]]
    | f :: fs => if c = ',' then [] :: f :: fs else (c :: f) :: fs

/-- Value of a decimal digit character, none for anything else. -/
def digitVal (c : Char) : Option Nat :=
  if 48 ≤ c.toNat ∧ c.toNat ≤ 57 then some (c.toNat - 48) else none

/-- Value of a lowercase hexadecimal digit character. -/
def hexDigitVal (c : Char) : Option Nat :=
  if 48 ≤ c.toNat ∧ c.toNat ≤ 57 then some (c.toNat - 48)
  else if 97 ≤ c.toNat ∧ c.toNat ≤ 102 then some (c.toNat - 87)
  else none

/-- Value of an octal digit character. -/
def octDigitVal (c : Char) : Option Nat :=
  if 48 ≤ c.toNat ∧ c.toNat ≤ 55 then some (c.toNat - 48) else none

/-- Value of a binary digit character. -/
def binDigitVal (c : Char) : Option Nat :=
  if 48 ≤ c.toNat ∧ c.toNat ≤ 49 then some (c.toNat - 48) else none

/-- Accumulate a digit string in the given base; none on a non-digit. -/
def parseDigitsAux (dv : Char → Option Nat) (base : Nat) :
    List Char → Nat → Option Nat
  | [], acc => some acc
  | c :: cs, acc =>
    match dv c with
    | some d => parseDigitsAux dv base cs (acc * base + d)
    | none => none

/-- Parse a nonempty digit string in the given base. -/
def parseDigits (dv : Char → Option Nat) (base : Nat) (l : List Char) :
    Option Nat :=
  if l = [] then none else parseDigitsAux dv base l 0

/-- Model of the unsigned part of the Python builtin int with base 0, for
an already lowercased string without underscores: a 0x, 0o or 0b prefixed
number, a plain decimal number without leading zeros, or all zeros. -/
def parseUnsignedBase0 : List Char → Option Nat
  | '0' :: 'x' :: rest => parseDigits hexDigitVal 16 rest
  | '0' :: 'o' :: rest => parseDigits octDigitVal 8 rest
  | '0' :: 'b' :: rest => parseDigits binDigitVal 2 rest
  | '0' :: rest => if rest.all (fun c => c = '0') then some 0 else none
  | l => parseDigits digitVal 10 l

/-- Model of the Python builtin int with base 0 (for an already lowercased
string without underscores): optional sign then an unsigned literal;
none models the ValueError on anything else. -/
def pyParseInt (s : List Char) : Option ℤ :=
  match s with
  | '+' :: rest => (parseUnsignedBase0 rest).map (fun n => (n : ℤ))
  | '-' :: rest => (parseUnsignedBase0 rest).map (fun n => -(n : ℤ))
  | _ => (parseUnsignedBase0 s).map (fun n => (n : ℤ))

/-- Split a list at the first occurrence of the given character: the part
before it, and the part after it when it occurs at all. -/
def spanNotChar (sep : Char) : List Char → List Char × Option (List Char)
  | [] => ([], none)
  | c :: rest =>
    if c = sep then ([], some rest)
    else
      let p := spanNotChar sep rest
      (c :: p.1, p.2)

/-- All characters are decimal digits. -/
def allDigits (l : List Char) : Bool := l.all (fun c => (digitVal c).isSome)

/-- Numeric value of a decimal digit string. -/
def digitsVal (l : List Char) : Nat :=
  l.foldl (fun acc c => acc * 10 + ((digitVal c).getD 0)) 0

/-- Parse the mantissa of a float literal: digits with an optional single
decimal point, at least one digit overall. -/
def parseMantissa (l : List Char) : Option ℚ :=
  let p := spanNotChar '.' l
  match p.2 with
  | none =>
    if p.1 ≠ [] ∧ allDigits p.1 then some (digitsVal p.1 : ℚ) else none
  | some fp =>
    if allDigits p.1 ∧ allDigits fp ∧ (p.1 ≠ [] ∨ fp ≠ []) then
      some ((digitsVal p.1 : ℚ) + (digitsVal fp : ℚ) / 10 ^ fp.length)
    else none

/-- Parse the exponent of a float literal: optional sign then digits. -/
def parseExp (l : List Char) : Option ℤ :=
  match l with
  | '+' :: rest =>
    if rest ≠ [] ∧ allDigits rest then some (digitsVal rest : ℤ) else none
  | '-' :: rest =>
    if rest ≠ [] ∧ allDigits rest then some (-(digitsVal rest : ℤ)) else none
  | _ => if l ≠ [] ∧ allDigits l then some (digitsVal l : ℤ) else none

/-- Model of the unsigned part of the Python builtin float on an already
lowercased string: the words inf, infinity and nan, or a finite decimal
literal with optional fraction and exponent. The finite value is kept as
an exact rational rather than rounded to a binary float. -/
def parseFloatMag (l : List Char) : Option PyFloat :=
  if l = "inf".toList ∨ l = "infinity".toList then some .posInf
  else if l = "nan".toList then some .nan
  else
    let p := spanNotChar 'e' l
    match p.2 with
    | none => (parseMantissa p.1).map .fin
    | some ex =>
      match parseMantissa p.1, parseExp ex with
      | some q, some z => some (.fin (q * (10 : ℚ) ^ z))
      | _, _ => none

/-- Model of the Python builtin float on an already lowercased string;
none models the ValueError on an unparsable string. -/
def pyParseFloat (s : List Char) : Option PyFloat :=
  match s with
  | '+' :: rest => parseFloatMag rest
  | '-' :: rest => (parseFloatMag rest).map PyFloat.pyNeg
  | _ => parseFloatMag s

namespace Interval

/-- Classmethod parse_string_limit: converts one interval limit from
string to a number, or none when undefined; an unparsable string is a
propagated ValueError from the float builtin. -/
def parse_string_limit (s : List Char) : Except IntervalError (Option PyFloat) :=
  let t := stripPyWs s
  if t = [] ∨ t = "none".toList ∨ t = "null".toList then .ok none
  else
    match pyParseInt t with
    | some n => .ok (some (.fin (n : ℚ)))
    | none =>
      match pyParseFloat t with
      | some v => if v.isFinite then .ok (some v) else .ok none
      | none => .error .unparsableLimit

/-- Classmethod from_string: normalize the raw text (drop whitespace,
lowercase, strip brackets from the ends, unify separators), split on the
comma, and parse zero, one or two limit fields. The empty field list is
unreachable since the split always yields at least one field. -/
def from_string (s : List Char) :
    Except IntervalError (Option PyFloat × Option PyFloat) :=
  let s1 := normalizeSeps (stripChars isBracketChar
    ((removeWhitespace s).map pyToLower))
  match splitOnComma s1 with
  | [_] => .ok (none, none)
  | [f1, f2] => do
    let lower ← parse_string_limit f1
    let upper ← parse_string_limit f2
    .ok (lower, upper)
  | l => .error (.tooManyFields l.length)

/-- Constructor branch for a single string argument: parse the candidates
then normalize through the common constructor tail. -/
def ofString (s : List Char) : Except IntervalError Interval := do
  let p ← from_string s
  return mkCand p.1 p.2

/-- Ordering invariant of an interval: lower is at most upper whenever
neither bound is NaN. -/
def ordOK (i : Interval) : Prop :=
  i.lower ≠ .nan → i.upper ≠ .nan → pyLe i.lower i.upper = true

end Interval

/-- The bracket characters acceptable around a textual interval. -/
def bracketChars : List Char := ['[', ']', '(', ')']

/-- The separator characters acceptable between the two textual limits. -/
def sepChars : List Char := [',', ';', ':', '|']

/-- The undefined limit tokens in lowercase form: each parses to an
undefined bound. -/
def undefinedTokens : List (List Char) :=
  [[], "none".toList, "null".toList, "nan".toList,
   "inf".toList, "-inf".toList, "infinity".toList, "-infinity".toList]

/-- The characters occurring in the undefined limit tokens. -/
def tokenAlphabet : List Char :=
  ['n', 'o', 'e', 'u', 'l', 'a', 'i', 'f', 't', 'y', '-']

-- ----- Order lemmas on PyFloat -----

namespace PyFloat

theorem pyLe_of_pyLt {a b : PyFloat} (h : pyLt a b = true) : pyLe a b = true := by
  cases a <;> cases b <;> simp_all [pyLt, pyLe] <;> linarith

theorem pyLt_irrefl (a : PyFloat) : pyLt a a = false := by
  cases a <;> simp [pyLt]

theorem pyLt_asymm {a b : PyFloat} (h : pyLt a b = true) : pyLt b a = false := by
  cases a <;> cases b <;> simp_all [pyLt] <;> linarith

theorem pyLe_of_not_pyLt {a b : PyFloat} (ha : a ≠ nan) (hb : b ≠ nan)
    (h : pyLt b a = false) : pyLe a b = true := by
  cases a <;> cases b <;> simp_all [pyLt, pyLe] <;> linarith

theorem eq_of_not_pyLt {a b : PyFloat} (ha : a ≠ nan) (hb : b ≠ nan)
    (h1 : pyLt a b = false) (h2 : pyLt b a = false) : a = b := by
  cases a <;> cases b <;> simp_all [pyLt] <;> linarith

theorem pyLt_of_pyLt_of_pyLe {a b c : PyFloat} (h1 : pyLt a b = true)
    (h2 : pyLe b c = true) : pyLt a c = true := by
  cases a <;> cases b <;> cases c <;> simp_all [pyLt, pyLe] <;> linarith

theorem pyLt_of_pyLe_of_pyLt {a b c : PyFloat} (h1 : pyLe a b = true)
    (h2 : pyLt b c = true) : pyLt a c = true := by
  cases a <;> cases b <;> cases c <;> simp_all [pyLt, pyLe] <;> linarith

theorem ne_nan_left_of_pyLt {a b : PyFloat} (h : pyLt a b = true) : a ≠ nan := by
  cases a <;> cases b <;> simp_all [pyLt]

theorem ne_nan_right_of_pyLt {a b : PyFloat} (h : pyLt a b = true) : b ≠ nan := by
  cases a <;> cases b <;> simp_all [pyLt]

theorem pyAdd_comm (a b : PyFloat) : pyAdd a b = pyAdd b a := by
  cases a <;> cases b <;> simp [pyAdd] <;> ring

end PyFloat

-- ----- Constructor invariant helpers -----

theorem mkCand_ordOK (l u : Option PyFloat) : (Interval.mkCand l u).ordOK := by
  rcases l with _ | a <;> rcases u with _ | b <;> intro h1 h2
  · decide
  · have hb : b ≠ .nan := h2
    show pyLe .negInf b = true
    cases b <;> simp_all [pyLt, pyLe]
  · have ha : a ≠ .nan := h1
    show pyLe a .posInf = true
    cases a <;> simp_all [pyLt, pyLe]
  · by_cases hab : pyGt a b = true
    · simp only [Interval.mkCand, hab, if_true, Option.getD_some] at h1 h2 ⊢
      exact PyFloat.pyLe_of_pyLt hab
    · simp only [Bool.not_eq_true] at hab
      simp only [Interval.mkCand, hab, if_false, Option.getD_some,
        Bool.false_eq_true] at h1 h2 ⊢
      exact PyFloat.pyLe_of_not_pyLt h1 h2 hab

theorem ofTwo_ordOK (x y : PyFloat) : (Interval.ofTwo x y).ordOK :=
  mkCand_ordOK (some x) (some y)

theorem bind_ofTwo_ordOK {x y : Option PyFloat} {r : Interval}
    (h : (x.bind fun l => y.bind fun u => some (Interval.ofTwo l u)) = some r) :
    r.ordOK := by
  rcases x with _ | l <;> rcases y with _ | u <;> simp at h
  exact h ▸ ofTwo_ordOK l u

theorem pyDiv_isSome {d : PyFloat} (x : PyFloat) (hd : d ≠ .fin 0) :
    (pyDiv x d).isSome = true := by
  cases d with
  | fin q =>
    have : q ≠ 0 := by intro h; exact hd (by rw [h])
    simp [pyDiv, this]
  | nan => simp [pyDiv]
  | posInf => simp [pyDiv]
  | negInf => simp [pyDiv]

theorem pyFloorDiv_isSome {d : PyFloat} (x : PyFloat) (hd : d ≠ .fin 0) :
    (pyFloorDiv x d).isSome = true := by
  cases d with
  | fin q =>
    have : q ≠ 0 := by intro h; exact hd (by rw [h])
    simp [pyFloorDiv, this]
  | nan => simp [pyFloorDiv]
  | posInf => simp [pyFloorDiv]
  | negInf => simp [pyFloorDiv]

theorem pyMod_isSome {d : PyFloat} (x : PyFloat) (hd : d ≠ .fin 0) :
    (pyMod x d).isSome = true := by
  cases d with
  | fin q =>
    have : q ≠ 0 := by intro h; exact hd (by rw [h])
    simp [pyMod, this]
  | nan => simp [pyMod]
  | posInf => simp [pyMod]
  | negInf => simp [pyMod]

-- ----- String pipeline helper lemmas (for claim C6) -----

theorem safeTokChar {c : Char} (h : pyToLower c ∈ tokenAlphabet) :
    isPyWs c = false ∧ isBracketChar c = false ∧ isSepChar c = false ∧
      c ≠ ',' := by
  by_cases hc : 65 ≤ c.toNat ∧ c.toNat ≤ 90
  · refine ⟨?_, ?_, ?_, ?_⟩
    · simp only [isPyWs, List.mem_cons, List.not_mem_nil, or_false,
        decide_eq_false_iff_not]
      rintro (rfl | rfl | rfl | rfl | rfl | rfl) <;> exact absurd hc (by decide)
    · simp only [isBracketChar, List.mem_cons, List.not_mem_nil, or_false,
        decide_eq_false_iff_not]
      rintro (rfl | rfl | rfl | rfl) <;> exact absurd hc (by decide)
    · simp only [isSepChar, List.mem_cons, List.not_mem_nil, or_false,
        decide_eq_false_iff_not]
      rintro (rfl | rfl | rfl) <;> exact absurd hc (by decide)
    · rintro rfl; exact absurd hc (by decide)
  · rw [pyToLower, if_neg hc] at h
    simp only [tokenAlphabet, List.mem_cons, List.not_mem_nil, or_false] at h
    rcases h with rfl | rfl | rfl | rfl | rfl | rfl | rfl | rfl | rfl | rfl | rfl <;>
      exact ⟨by decide, by decide, by decide, by decide⟩

theorem alphaSafe {c : Char} (h : c ∈ tokenAlphabet) :
    isBracketChar c = false ∧ isSepChar c = false ∧ c ≠ ',' := by
  simp only [tokenAlphabet, List.mem_cons, List.not_mem_nil, or_false] at h
  rcases h with rfl | rfl | rfl | rfl | rfl | rfl | rfl | rfl | rfl | rfl | rfl <;>
    exact ⟨by decide, by decide, by decide⟩

theorem bracketSafe {b : Char} (hb : isBracketChar b = true) :
    isPyWs b = false ∧ pyToLower b = b := by
  simp only [isBracketChar, List.mem_cons, List.not_mem_nil, or_false,
    decide_eq_true_eq] at hb
  rcases hb with rfl | rfl | rfl | rfl <;> exact ⟨by decide, by decide⟩

theorem sepSafe {s : Char} (hs : s ∈ sepChars) :
    isPyWs s = false ∧ isBracketChar s = false ∧ pyToLower s = s ∧
      (if isSepChar s then ',' else s) = ',' := by
  simp only [sepChars, List.mem_cons, List.not_mem_nil, or_false] at hs
  rcases hs with rfl | rfl | rfl | rfl <;>
    exact ⟨by decide, by decide, by decide, by decide⟩

theorem dropWhile_eq_self_of_forall {p : Char → Bool} {l : List Char}
    (h : ∀ c ∈ l, p c = false) : l.dropWhile p = l := by
  cases l with
  | nil => rfl
  | cons c cs => simp [List.dropWhile_cons, h c (by simp)]

theorem stripChars_sandwich {p : Char → Bool} {b1 b2 : Char} {mid : List Char}
    (hb1 : p b1 = true) (hb2 : p b2 = true) (hmid : ∀ c ∈ mid, p c = false)
    (hne : mid ≠ []) : stripChars p (b1 :: mid ++ [b2]) = mid := by
  have h1 : (b1 :: mid ++ [b2]).dropWhile p = mid ++ [b2] := by
    rcases hm : mid with _ | ⟨m, ms⟩
    · exact absurd hm hne
    · subst hm
      rw [List.cons_append, List.dropWhile_cons, hb1, if_pos rfl,
        List.cons_append, List.dropWhile_cons, hmid m (by simp)]
      simp
  have h2 : (mid ++ [b2]).reverse.dropWhile p = mid.reverse := by
    rw [List.reverse_append, List.reverse_singleton, List.singleton_append,
      List.dropWhile_cons]
    simp only [hb2, if_true]
    exact dropWhile_eq_self_of_forall
      (fun c hc => hmid c (List.mem_reverse.mp hc))
  rw [stripChars, h1, h2, List.reverse_reverse]

theorem map_eq_self_of_forall {f : Char → Char} {l : List Char}
    (h : ∀ c ∈ l, f c = c) : l.map f = l := by
  induction l with
  | nil => rfl
  | cons c cs ih =>
    rw [List.map_cons, h c (by simp), ih (fun x hx => h x (by simp [hx]))]

theorem splitOnComma_ne_nil (l : List Char) : splitOnComma l ≠ [] := by
  cases l with
  | nil => simp [splitOnComma]
  | cons c cs =>
    rcases h : splitOnComma cs with _ | ⟨f, fs⟩
    · rw [splitOnComma, h]; simp
    · rw [splitOnComma, h]
      by_cases hc : c = ',' <;> simp [hc]

theorem splitOnComma_no_comma {l : List Char} (h : ∀ c ∈ l, c ≠ ',') :
    splitOnComma l = [l] := by
  induction l with
  | nil => rfl
  | cons c cs ih =>
    rw [splitOnComma, ih (fun x hx => h x (by simp [hx]))]
    simp [h c (by simp)]

theorem splitOnComma_append {l1 l2 : List Char} (h : ∀ c ∈ l1, c ≠ ',') :
    splitOnComma (l1 ++ ',' :: l2) = l1 :: splitOnComma l2 := by
  induction l1 with
  | nil =>
    rw [List.nil_append, splitOnComma]
    rcases hs : splitOnComma l2 with _ | ⟨f, fs⟩
    · exact absurd hs (splitOnComma_ne_nil l2)
    · simp
  | cons c cs ih =>
    rw [List.cons_append, splitOnComma, ih (fun x hx => h x (by simp [hx]))]
    simp [h c (by simp)]

theorem undefTokens_spec (L : List Char) (hL : L ∈ undefinedTokens) :
    (∀ c ∈ L, c ∈ tokenAlphabet) ∧
      Interval.parse_string_limit L = .ok none := by
  fin_cases hL <;> exact ⟨by decide, rfl⟩

theorem ofString_undef_core (b1 b2 sep : Char) (t1 t2 L1 L2 : List Char)
    (hb1 : isBracketChar b1 = true) (hb2 : isBracketChar b2 = true)
    (hsep : sep ∈ sepChars)
    (h1 : t1.map pyToLower = L1) (h2 : t2.map pyToLower = L2)
    (hA1 : ∀ c ∈ L1, c ∈ tokenAlphabet) (hA2 : ∀ c ∈ L2, c ∈ tokenAlphabet)
    (hp1 : Interval.parse_string_limit L1 = .ok none)
    (hp2 : Interval.parse_string_limit L2 = .ok none) :
    Interval.ofString (b1 :: t1 ++ sep :: t2 ++ [b2]) =
      .ok ⟨.negInf, .posInf⟩ := by
  obtain ⟨hsw, hsb, hsl, hsc⟩ := sepSafe hsep
  obtain ⟨hb1w, hb1l⟩ := bracketSafe hb1
  obtain ⟨hb2w, hb2l⟩ := bracketSafe hb2
  have ht1 : ∀ c ∈ t1, isPyWs c = false ∧ isBracketChar c = false ∧
      isSepChar c = false ∧ c ≠ ',' := fun c hc =>
    safeTokChar (hA1 _ (h1 ▸ List.mem_map_of_mem pyToLower hc))
  have ht2 : ∀ c ∈ t2, isPyWs c = false ∧ isBracketChar c = false ∧
      isSepChar c = false ∧ c ≠ ',' := fun c hc =>
    safeTokChar (hA2 _ (h2 ▸ List.mem_map_of_mem pyToLower hc))
  have hws : removeWhitespace (b1 :: t1 ++ sep :: t2 ++ [b2]) =
      b1 :: t1 ++ sep :: t2 ++ [b2] := by
    apply List.filter_eq_self.mpr
    intro c hc
    simp only [List.mem_append, List.mem_cons, List.mem_singleton,
      List.not_mem_nil, or_false, or_assoc] at hc
    rcases hc with rfl | hc | rfl | hc | rfl
    · simp [hb1w]
    · simp [(ht1 c hc).1]
    · simp [hsw]
    · simp [(ht2 c hc).1]
    · simp [hb2w]
  have hmap : (b1 :: t1 ++ sep :: t2 ++ [b2]).map pyToLower =
      b1 :: L1 ++ sep :: L2 ++ [b2] := by
    simp only [List.map_append, List.map_cons, List.map_nil, h1, h2,
      hb1l, hb2l, hsl]
  have hmid : ∀ c ∈ L1 ++ sep :: L2, isBracketChar c = false := by
    intro c hc
    simp only [List.mem_append, List.mem_cons] at hc
    rcases hc with hc | rfl | hc
    · exact (alphaSafe (hA1 c hc)).1
    · exact hsb
    · exact (alphaSafe (hA2 c hc)).1
  have hmidne : L1 ++ sep :: L2 ≠ [] := by
    rcases L1 with _ | ⟨x, xs⟩ <;> simp
  have hstrip : stripChars isBracketChar (b1 :: L1 ++ sep :: L2 ++ [b2]) =
      L1 ++ sep :: L2 := by
    have e : b1 :: L1 ++ sep :: L2 ++ [b2] =
        b1 :: (L1 ++ sep :: L2) ++ [b2] := by simp
    rw [e]
    exact stripChars_sandwich hb1 hb2 hmid hmidne
  have hnorm : normalizeSeps (L1 ++ sep :: L2) = L1 ++ ',' :: L2 := by
    rw [normalizeSeps, List.map_append, List.map_cons,
      map_eq_self_of_forall (fun c hc => by
        simp [(alphaSafe (hA1 c hc)).2.1]),
      map_eq_self_of_forall (fun c hc => by
        simp [(alphaSafe (hA2 c hc)).2.1]),
      hsc]
  have hsplit : splitOnComma (L1 ++ ',' :: L2) = [L1, L2] := by
    rw [splitOnComma_append (fun c hc => (alphaSafe (hA1 c hc)).2.2),
      splitOnComma_no_comma (fun c hc => (alphaSafe (hA2 c hc)).2.2)]
  rw [Interval.ofString, Interval.from_string, hws, hmap, hstrip, hnorm,
    hsplit]
  simp only [hp1, hp2]
  rfl

-- ----- Claim C6 -----

/-- Claim C6: parsing any string built from a bracket, an undefined token
(empty, none, null, nan, inf, -inf, infinity, -infinity, in any casing),
one separator among comma, semicolon, colon and pipe, a second undefined
token, and a bracket yields the fully unbounded interval. -/
theorem C6_parse_undefined (b1 b2 sep : Char) (t1 t2 : List Char)
    (hb1 : b1 ∈ bracketChars) (hb2 : b2 ∈ bracketChars)
    (hsep : sep ∈ sepChars)
    (h1 : t1.map pyToLower ∈ undefinedTokens)
    (h2 : t2.map pyToLower ∈ undefinedTokens) :
    Interval.ofString (b1 :: t1 ++ sep :: t2 ++ [b2]) =
      .ok ⟨.negInf, .posInf⟩ := by
  obtain ⟨hA1, hp1⟩ := undefTokens_spec _ h1
  obtain ⟨hA2, hp2⟩ := undefTokens_spec _ h2
  refine ofString_undef_core b1 b2 sep t1 t2 _ _ ?_ ?_ hsep rfl rfl
    hA1 hA2 hp1 hp2
  · simpa [isBracketChar, bracketChars] using hb1
  · simpa [isBracketChar, bracketChars] using hb2

/-- Claim C6 witness: the theorem evaluated on the concrete string with
brackets, the cased tokens NaN and -INF, and the semicolon separator. -/
theorem C6_parse_undefined_witness :
    Interval.ofString ('[' :: "NaN".toList ++ ';' :: "-INF".toList ++ [']']) =
      .ok ⟨.negInf, .posInf⟩ :=
  C6_parse_undefined '[' ']' ';' "NaN".toList "-INF".toList (by decide)
    (by decide) (by decide) (by decide) (by decide)

-- ----- Claim C1 -----

/-- Claim C1, counterexample: constructing an Interval from the two numeric
values NaN and 5 keeps NaN as the lower bound; it is not normalized to
negative infinity, contrary to the claim that a not-a-number bound
candidate always becomes the appropriate signed infinity. -/
theorem C1_nan_survives_counterexample :
    (Interval.ofTwo .nan (.fin 5)).lower = .nan ∧
    (Interval.ofTwo .nan (.fin 5)).lower ≠ .negInf := by
  decide

/-- Claim C1 as amended: a bound candidate that is None or absent is
normalized to the appropriate signed infinity, and a single non-finite
numeric argument (NaN included) yields the unbounded interval; but a NaN
given directly as one of two numeric values is kept as that bound. -/
theorem C1_normalization_amended :
    (∀ u : Option PyFloat, (Interval.mkCand none u).lower = .negInf) ∧
    (∀ l : Option PyFloat, (Interval.mkCand l none).upper = .posInf) ∧
    (∀ v : PyFloat, v.isFinite = false →
      Interval.ofNum v = ⟨.negInf, .posInf⟩) ∧
    Interval.ofTwo .nan (.fin 5) = ⟨.nan, .fin 5⟩ := by
  refine ⟨?_, ?_, ?_, by decide⟩
  · intro u; rcases u with _ | b <;> rfl
  · intro l; rcases l with _ | a <;> rfl
  · intro v hv; simp [Interval.ofNum, hv, Interval.mkCand]

/-- Claim C1 witness: the amended normalization evaluated at the single
argument NaN. -/
theorem C1_normalization_witness :
    Interval.ofNum .nan = ⟨.negInf, .posInf⟩ :=
  C1_normalization_amended.2.2.1 .nan (by decide)

-- ----- Claim C2 -----

/-- Claim C2, counterexample: negating the interval with bounds 2 and 5
yields the re-sorted bounds -5 and -2, not the raw pair -2 and -5 the
claim asserts. -/
theorem C2_neg_resorts_counterexample :
    Interval.neg (Interval.ofTwo (.fin 2) (.fin 5)) = ⟨.fin (-5), .fin (-2)⟩ ∧
    Interval.neg (Interval.ofTwo (.fin 2) (.fin 5)) ≠ ⟨.fin (-2), .fin (-5)⟩ := by
  decide

/-- Claim C2 as amended: negation and absolute value apply elementwise to
lower and upper, but the result is rebuilt through the constructor, which
swaps out-of-order bounds; negating an ordered finite interval with
bounds l and u therefore yields bounds -u and -l. -/
theorem C2_neg_abs_amended :
    (∀ l u : ℚ, l ≤ u →
      Interval.neg ⟨.fin l, .fin u⟩ = ⟨.fin (-u), .fin (-l)⟩) ∧
    (∀ a : Interval, Interval.neg a = Interval.ofTwo (pyNeg a.lower) (pyNeg a.upper)) ∧
    (∀ a : Interval, Interval.absI a = Interval.ofTwo (pyAbs a.lower) (pyAbs a.upper)) ∧
    Interval.absI ⟨.fin (-5), .fin (-2)⟩ = ⟨.fin 2, .fin 5⟩ := by
  refine ⟨?_, fun _ => rfl, fun _ => rfl, by decide⟩
  intro l u h
  rcases eq_or_lt_of_le h with h' | h'
  · subst h'
    simp [Interval.neg, Interval.ofTwo, Interval.mkCand, pyNeg, PyFloat.pyGt,
      PyFloat.pyLt]
  · have : PyFloat.pyGt (.fin (-l)) (.fin (-u)) = true := by
      simp [PyFloat.pyGt, PyFloat.pyLt]; linarith
    simp [Interval.neg, Interval.ofTwo, Interval.mkCand, pyNeg, this]

/-- Claim C2 witness: the amended statement evaluated at the interval with
bounds 2 and 5. -/
theorem C2_neg_abs_witness :
    Interval.neg ⟨.fin 2, .fin 5⟩ = ⟨.fin (-5), .fin (-2)⟩ :=
  C2_neg_abs_amended.1 2 5 (by norm_num)

-- ----- Claim C3 -----

/-- Claim C3, counterexample: intersecting the disjoint intervals with
bounds 0, 1 and 5, 6 without the disjointness flag returns the interval
with lower bound 1 and upper bound 5: the raw pair max-lower 5, min-upper
1 was swapped by the constructor, so the result is not an inverted
interval with upper below lower. -/
theorem C3_not_inverted_counterexample :
    Interval.intersection (Interval.ofTwo (.fin 0) (.fin 1))
        (Interval.ofTwo (.fin 5) (.fin 6)) false = .ok ⟨.fin 1, .fin 5⟩ ∧
    pyLt (PyFloat.fin 5) (PyFloat.fin 1) = false :=
  ⟨rfl, rfl⟩

/-- Claim C3 as amended: intersection with the disjointness flag unset
builds the interval from max of lowers and min of uppers through the
constructor; on disjoint well-ordered inputs the raw pair is out of order
and the constructor swaps it, yielding the valid interval from the first
upper bound to the second lower bound rather than an inverted one. -/
theorem C3_intersection_amended :
    (∀ A B : Interval, A.intersection B false =
      .ok (Interval.ofTwo (pyMaxF A.lower B.lower) (pyMinF A.upper B.upper))) ∧
    (∀ A B : Interval, pyLe A.lower A.upper = true →
      pyLe B.lower B.upper = true → A.is_disjoint B = true →
      A.intersection B false = .ok ⟨A.upper, B.lower⟩ ∧
      pyLe A.upper B.lower = true) := by
  constructor
  · intro A B
    simp [Interval.intersection]
  · intro A B hA hB hd
    have hd' : pyLt A.upper B.lower = true := hd
    have hlow : pyLt A.lower B.lower = true :=
      PyFloat.pyLt_of_pyLe_of_pyLt hA hd'
    have hup : pyLt A.upper B.upper = true :=
      PyFloat.pyLt_of_pyLt_of_pyLe hd' hB
    have hmax : pyMaxF A.lower B.lower = B.lower := by
      simp [pyMaxF, PyFloat.pyGt, hlow]
    have hmin : pyMinF A.upper B.upper = A.upper := by
      simp [pyMinF, PyFloat.pyLt_asymm hup]
    refine ⟨?_, PyFloat.pyLe_of_pyLt hd'⟩
    simp [Interval.intersection, hmax, hmin, Interval.ofTwo, Interval.mkCand,
      PyFloat.pyGt, hd']

/-- Claim C3 witness: the amended statement evaluated at the disjoint
intervals with bounds 0, 1 and 5, 6. -/
theorem C3_intersection_witness :
    Interval.intersection (Interval.ofTwo (.fin 0) (.fin 1))
        (Interval.ofTwo (.fin 5) (.fin 6)) false =
      .ok ⟨(Interval.ofTwo (.fin 0) (.fin 1)).upper,
           (Interval.ofTwo (.fin 5) (.fin 6)).lower⟩ ∧
    pyLe (Interval.ofTwo (.fin 0) (.fin 1)).upper
        (Interval.ofTwo (.fin 5) (.fin 6)).lower = true :=
  C3_intersection_amended.2 _ _ (by decide) (by decide) (by decide)

-- ----- Claim C4 -----

/-- Claim C4, counterexample: with a NaN among the two values the claimed
symmetry fails, both under the Python equality of the source (which is
false on any NaN bound) and structurally: the interval built from NaN
and 0 differs from the interval built from 0 and NaN. -/
theorem C4_nan_counterexample :
    Interval.pyEqI (Interval.ofTwo .nan (.fin 0))
        (Interval.ofTwo (.fin 0) .nan) = false ∧
    Interval.ofTwo .nan (.fin 0) ≠ Interval.ofTwo (.fin 0) .nan := by
  decide

/-- Claim C4 as amended: for every two values a and b neither of which is
NaN, constructing from a, b equals constructing from b, a, and both equal
the interval from the Python min to the Python max of the two values;
out-of-order pairs are silently swapped. -/
theorem C4_swap_amended (a b : PyFloat) (ha : a ≠ .nan) (hb : b ≠ .nan) :
    Interval.ofTwo a b = Interval.ofTwo b a ∧
    Interval.ofTwo a b = ⟨pyMinF a b, pyMaxF a b⟩ := by
  by_cases h1 : pyLt b a = true
  · have h2 : pyLt a b = false := PyFloat.pyLt_asymm h1
    simp [Interval.ofTwo, Interval.mkCand, pyMinF, pyMaxF, PyFloat.pyGt,
      h1, h2]
  · simp only [Bool.not_eq_true] at h1
    by_cases h2 : pyLt a b = true
    · simp [Interval.ofTwo, Interval.mkCand, pyMinF, pyMaxF, PyFloat.pyGt,
        h1, h2]
    · simp only [Bool.not_eq_true] at h2
      have : a = b := PyFloat.eq_of_not_pyLt ha hb h2 h1
      subst this
      simp [Interval.ofTwo, Interval.mkCand, pyMinF, pyMaxF, PyFloat.pyGt,
        h1, h2]

/-- Claim C4 witness: the amended statement evaluated at 5 and 0, the
out-of-order pair from the spec example. -/
theorem C4_swap_witness :
    Interval.ofTwo (.fin 5) (.fin 0) = Interval.ofTwo (.fin 0) (.fin 5) ∧
    Interval.ofTwo (.fin 5) (.fin 0) =
      ⟨pyMinF (.fin 5) (.fin 0), pyMaxF (.fin 5) (.fin 0)⟩ :=
  C4_swap_amended (.fin 5) (.fin 0) (by decide) (by decide)

-- ----- Claim C5 -----

/-- Claim C5: whenever A is disjoint from B in the sense of the source
(the upper bound of A is below the lower bound of B), intersection with
the disjointness flag enabled raises the disjointness error (the
ValueError the spec names IncompatibleRange), and union under the same
flag raises the same error. -/
theorem C5_disjoint_error (A B : Interval) (h : A.is_disjoint B = true) :
    A.intersection B true = .error (.disjointIntervals A B) ∧
    A.union B true = .error (.disjointIntervals A B) := by
  simp [Interval.intersection, Interval.union, h]

/-- Claim C5 witness: the statement evaluated at the disjoint intervals
with bounds 0, 1 and 5, 6. -/
theorem C5_disjoint_error_witness :
    Interval.intersection (Interval.ofTwo (.fin 0) (.fin 1))
        (Interval.ofTwo (.fin 5) (.fin 6)) true =
      .error (.disjointIntervals (Interval.ofTwo (.fin 0) (.fin 1))
        (Interval.ofTwo (.fin 5) (.fin 6))) ∧
    Interval.union (Interval.ofTwo (.fin 0) (.fin 1))
        (Interval.ofTwo (.fin 5) (.fin 6)) true =
      .error (.disjointIntervals (Interval.ofTwo (.fin 0) (.fin 1))
        (Interval.ofTwo (.fin 5) (.fin 6))) :=
  C5_disjoint_error _ _ (by decide)

-- ----- Claim C7 -----

/-- Claim C7: the comparison operators implement interval ordering: a is
below b exactly when the upper bound of a is below the lower bound of b,
and likewise for the non-strict and mirrored forms; consequently two
overlapping intervals are neither below nor above one another. -/
theorem C7_interval_ordering (a b : Interval) :
    (Interval.lt a b = pyLt a.upper b.lower) ∧
    (Interval.le a b = pyLe a.upper b.lower) ∧
    (Interval.gt a b = pyGt a.lower b.upper) ∧
    (Interval.ge a b = pyGe a.lower b.upper) ∧
    (pyLt a.upper b.lower = false → pyLt b.upper a.lower = false →
      Interval.lt a b = false ∧ Interval.gt a b = false) := by
  refine ⟨rfl, rfl, rfl, rfl, fun h1 h2 => ⟨h1, h2⟩⟩

/-- Claim C7 witness: the overlap consequence evaluated at the overlapping
intervals with bounds 0, 2 and 1, 3. -/
theorem C7_interval_ordering_witness :
    Interval.lt (Interval.ofTwo (.fin 0) (.fin 2))
        (Interval.ofTwo (.fin 1) (.fin 3)) = false ∧
    Interval.gt (Interval.ofTwo (.fin 0) (.fin 2))
        (Interval.ofTwo (.fin 1) (.fin 3)) = false :=
  (C7_interval_ordering _ _).2.2.2.2 (by decide) (by decide)

-- ----- Claim C8 -----

/-- Claim C8: interval addition is commutative, and coercion of a bare
two-value tuple is transparent: the reflected form computes the same
interval as the forward form, and coercing the tuple on either side gives
the same sum. -/
theorem C8_add_commutative :
    (∀ A B : Interval, A.add B = B.add A) ∧
    (∀ (A : Interval) (p : PyFloat × PyFloat), A.radd p = A.addPair p) ∧
    (∀ (A : Interval) (p : PyFloat × PyFloat),
      A.addPair p = (Interval.ofPair p).add A) := by
  have hcomm : ∀ A B : Interval, A.add B = B.add A := by
    intro A B
    simp only [Interval.add, PyFloat.pyAdd_comm]
  exact ⟨hcomm, fun _ _ => rfl, fun A p => hcomm A (Interval.ofPair p)⟩

-- ----- Claim C9 -----

/-- Claim C9: every interval produced by the constructor or returned by
the embedded arithmetic, rounding, sign, intersection or union operations
satisfies the ordering invariant lower at most upper whenever neither of
its bounds is NaN, because every operation rebuilds its result through
the single constructor path, which swaps out-of-order bounds. -/
theorem C9_invariant :
    (∀ l u : Option PyFloat, (Interval.mkCand l u).ordOK) ∧
    (∀ a b : Interval, (a.add b).ordOK) ∧
    (∀ a b : Interval, (a.sub b).ordOK) ∧
    (∀ a b : Interval, (a.mul b).ordOK) ∧
    (∀ a : Interval, a.neg.ordOK) ∧
    (∀ a : Interval, a.absI.ordOK) ∧
    (∀ a : Interval, a.sign.ordOK) ∧
    (∀ (a b r : Interval), a.truediv b = some r → r.ordOK) ∧
    (∀ (a b r : Interval), a.floordiv b = some r → r.ordOK) ∧
    (∀ (a b r : Interval), a.modI b = some r → r.ordOK) ∧
    (∀ (a r : Interval), a.round_wider = some r → r.ordOK) ∧
    (∀ (a r : Interval), a.round_narrower = some r → r.ordOK) ∧
    (∀ (a b : Interval) (f : Bool) (r : Interval),
      a.intersection b f = .ok r → r.ordOK) ∧
    (∀ (a b : Interval) (f : Bool) (r : Interval),
      a.union b f = .ok r → r.ordOK) := by
  refine ⟨mkCand_ordOK, fun a b => ofTwo_ordOK _ _, fun a b => ofTwo_ordOK _ _,
    fun a b => ofTwo_ordOK _ _, fun a => ofTwo_ordOK _ _,
    fun a => ofTwo_ordOK _ _, fun a => ofTwo_ordOK _ _,
    ?_, ?_, ?_, ?_, ?_, ?_, ?_⟩
  · intro a b r h
    exact bind_ofTwo_ordOK h
  · intro a b r h
    exact bind_ofTwo_ordOK h
  · intro a b r h
    exact bind_ofTwo_ordOK h
  · intro a r h
    exact bind_ofTwo_ordOK h
  · intro a r h
    exact bind_ofTwo_ordOK h
  · intro a b f r h
    rcases hd : a.is_disjoint b && f <;> simp [Interval.intersection, hd] at h
    exact h ▸ ofTwo_ordOK _ _
  · intro a b f r h
    rcases hd : a.is_disjoint b && f <;> simp [Interval.union, hd] at h
    exact h ▸ ofTwo_ordOK _ _

/-- Claim C9 witness: the constructor invariant evaluated at the
out-of-order candidates 3 and 1. -/
theorem C9_invariant_witness :
    pyLe (Interval.mkCand (some (.fin 3)) (some (.fin 1))).lower
      (Interval.mkCand (some (.fin 3)) (some (.fin 1))).upper = true :=
  C9_invariant.1 (some (.fin 3)) (some (.fin 1)) (by decide) (by decide)

-- ----- Claim C10 -----

/-- Claim C10: true division, floor division and modulo are endpoint-wise
with no zero guard: whenever the divisor interval has an endpoint equal
to zero, each of the three operations raises ZeroDivisionError (none),
even when the divisor interval also contains nonzero values; and when
both divisor endpoints are nonzero, all three operations return a value. -/
theorem C10_zero_divisor (A B : Interval) :
    (B.lower = .fin 0 ∨ B.upper = .fin 0 →
      A.truediv B = none ∧ A.floordiv B = none ∧ A.modI B = none) ∧
    (B.lower ≠ .fin 0 → B.upper ≠ .fin 0 →
      (A.truediv B).isSome = true ∧ (A.floordiv B).isSome = true ∧
      (A.modI B).isSome = true) := by
  constructor
  · intro h
    rcases h with h | h
    · refine ⟨?_, ?_, ?_⟩ <;>
        simp [Interval.truediv, Interval.floordiv, Interval.modI, h,
          pyDiv, pyFloorDiv, pyMod]
    · refine ⟨?_, ?_, ?_⟩ <;>
        (rcases hl : pyDiv A.lower B.lower with _ | l' <;>
          rcases hl2 : pyFloorDiv A.lower B.lower with _ | l2 <;>
          rcases hl3 : pyMod A.lower B.lower with _ | l3 <;>
        simp [Interval.truediv, Interval.floordiv, Interval.modI, h, hl, hl2,
          hl3, pyDiv, pyFloorDiv, pyMod])
  · intro h1 h2
    refine ⟨?_, ?_, ?_⟩
    · rcases Option.isSome_iff_exists.mp (pyDiv_isSome A.lower h1) with ⟨l', hl⟩
      rcases Option.isSome_iff_exists.mp (pyDiv_isSome A.upper h2) with ⟨u', hu⟩
      simp [Interval.truediv, hl, hu]
    · rcases Option.isSome_iff_exists.mp (pyFloorDiv_isSome A.lower h1) with ⟨l', hl⟩
      rcases Option.isSome_iff_exists.mp (pyFloorDiv_isSome A.upper h2) with ⟨u', hu⟩
      simp [Interval.floordiv, hl, hu]
    · rcases Option.isSome_iff_exists.mp (pyMod_isSome A.lower h1) with ⟨l', hl⟩
      rcases Option.isSome_iff_exists.mp (pyMod_isSome A.upper h2) with ⟨u', hu⟩
      simp [Interval.modI, hl, hu]

/-- Claim C10 witness: division by the interval with endpoints 0 and 5
raises, and division by the interval with endpoints 1 and 2 succeeds. -/
theorem C10_zero_divisor_witness :
    (Interval.truediv (Interval.ofTwo (.fin 1) (.fin 2))
        (Interval.ofTwo (.fin 0) (.fin 5)) = none ∧
      Interval.floordiv (Interval.ofTwo (.fin 1) (.fin 2))
        (Interval.ofTwo (.fin 0) (.fin 5)) = none ∧
      Interval.modI (Interval.ofTwo (.fin 1) (.fin 2))
        (Interval.ofTwo (.fin 0) (.fin 5)) = none) ∧
    ((Interval.truediv (Interval.ofTwo (.fin 1) (.fin 2))
        (Interval.ofTwo (.fin 1) (.fin 2))).isSome = true ∧
      (Interval.floordiv (Interval.ofTwo (.fin 1) (.fin 2))
        (Interval.ofTwo (.fin 1) (.fin 2))).isSome = true ∧
      (Interval.modI (Interval.ofTwo (.fin 1) (.fin 2))
        (Interval.ofTwo (.fin 1) (.fin 2))).isSome = true) :=
  ⟨(C10_zero_divisor _ _).1 (Or.inl (by decide)),
   (C10_zero_divisor _ _).2 (by decide) (by decide)⟩

end Intervalg
